import Mathlib

/-!
Verification of the universal-fair-scraper backend (`src/backend/server.js`).

The scraping core runs inside a browser via `page.evaluate`; we embed the
evaluated functions shallowly: the DOM fragments they inspect become explicit
Lean data (a table is a list of rows, a row a list of cells, a cell records
its tag kind, colspan attribute presence, the texts of its span descendants
and its own text content), JavaScript string operations become structurally
recursive functions over `List Char`, and the nondeterministic browser steps
of the orchestrator are abstracted behind an explicit step function.
-/

namespace FairScraper

/-! ## JavaScript string primitives, modelled over character lists -/

/-- Bool test that `pat` is an initial segment of `l` (used to model
JavaScript substring search). -/
def startsWith : List Char → List Char → Bool
  | [], _ => true
  | _ :: _, [] => false
  | a :: as, b :: bs => (a == b) && startsWith as bs

/-- Bool test that `pat` occurs as a contiguous sublist of `l`; models
`String.prototype.includes` for the pattern `pat`. -/
def containsPat (pat : List Char) : List Char → Bool
  | [] => startsWith pat []
  | c :: rest => startsWith pat (c :: rest) || containsPat pat rest

/-- Model of JavaScript `s.includes(pat)`. -/
def jsIncludes (s pat : String) : Bool :=
  containsPat pat.toList s.toList

/-- Model of JavaScript `s.toLowerCase()` (ASCII range, which covers every
literal the scraper compares against). -/
def jsToLower (s : String) : String :=
  String.mk (s.toList.map Char.toLower)

/-- Drop leading whitespace characters. -/
def dropLeadingWs (l : List Char) : List Char :=
  l.dropWhile Char.isWhitespace

/-- Model of JavaScript `s.trim()`. -/
def jsTrim (s : String) : String :=
  String.mk (dropLeadingWs ((dropLeadingWs s.toList.reverse).reverse))

/-- Split a character list on a separator character; models
`String.prototype.split` with a one-character separator (so `""` splits to
`[""]`, and a trailing separator produces a trailing empty segment). -/
def splitOnCharAux (sep : Char) : List Char → List Char → List (List Char)
  | [], acc => [acc.reverse]
  | c :: rest, acc =>
      if c == sep then acc.reverse :: splitOnCharAux sep rest []
      else splitOnCharAux sep rest (c :: acc)

/-- Split on a separator character, starting with an empty accumulator. -/
def splitOnChar (sep : Char) (l : List Char) : List (List Char) :=
  splitOnCharAux sep l []

/-- Model of JavaScript `s.indexOf(c)`: index of the first occurrence of the
character `c`, or `-1` when absent. -/
def jsIndexOfChar (s : String) (c : Char) : Int :=
  match s.toList.findIdx? (fun x => x == c) with
  | some i => (i : Int)
  | none => -1

/-- Everything after the first colon of `s`; models
`s.substring(s.indexOf(':') + 1)` when `s` contains a colon. -/
def afterFirstColon (s : String) : String :=
  String.mk ((s.toList.dropWhile (fun c => !(c == ':'))).drop 1)

/-! ## Table model (the DOM fragment `extractCategoryResults` inspects) -/

/-- One table cell (`td` or `th`): its tag kind, whether a `colspan`
attribute is present (what the selector `th[colspan]` tests), the text
content of each `span` descendant in document order, and the cell's own
text content. -/
structure Cell where
  isTh : Bool
  hasColspan : Bool
  spanTexts : List String
  text : String
deriving Repr, DecidableEq

/-- A table row is its list of cells in document order. -/
abbrev Row := List Cell

/-- One extracted result entry, fields in the order the source pushes them. -/
structure ResultEntry where
  name : String
  ribbon : String
  awards : String
  placing : String
  club : String
  subcategory : String
deriving Repr, DecidableEq

/-- Return value of `extractCategoryResults`: the source returns an object
carrying an optional `error` string and the `results` array (`results` is
`[]` in the error case). -/
structure ExtractResult where
  error : Option String
  results : List ResultEntry
deriving Repr, DecidableEq

/-- The five resolved column indices, `-1` when unmatched, exactly as the
source's `nameCol, ribbonCol, awardsCol, clubCol, placingCol` variables. -/
structure ColMap where
  nameCol : Int
  ribbonCol : Int
  awardsCol : Int
  clubCol : Int
  placingCol : Int
deriving Repr, DecidableEq

/-- The initial column map: every column unresolved. -/
def ColMap.init : ColMap := ⟨-1, -1, -1, -1, -1⟩

/-- Process one header at index `i`: the source's if/else-if chain over the
lowercased header text. -/
def assignHeader (m : ColMap) (header : String) (index : Int) : ColMap :=
  let headerLower := jsToLower header
  if jsIncludes headerLower "exhibitor" && jsIncludes headerLower "name" then
    { m with nameCol := index }
  else if jsIncludes headerLower "ribbon" then
    { m with ribbonCol := index }
  else if jsIncludes headerLower "award" then
    { m with awardsCol := index }
  else if jsIncludes headerLower "club" then
    { m with clubCol := index }
  else if jsIncludes headerLower "placing" then
    { m with placingCol := index }
  else m

/-- The `headers.forEach((header, index) => ...)` loop. -/
def resolveColsAux : ColMap → Int → List String → ColMap
  | m, _, [] => m
  | m, i, h :: rest => resolveColsAux (assignHeader m h i) (i + 1) rest

/-- Resolve all column roles from the list of header texts. -/
def resolveCols (headers : List String) : ColMap :=
  resolveColsAux ColMap.init 0 headers

/-- Header texts: the source queries `thead th, tr:first-child th,
tr:first-child td` and trims each text; for the observed table shape
(no `thead`, rows directly in the table) that is the first row's cells. -/
def headersOf (rows : List Row) : List String :=
  match rows with
  | [] => []
  | r :: _ => r.map (fun c => jsTrim c.text)

/-- Model of `row.querySelector('th[colspan]')`: the first `th` cell of the
row carrying a `colspan` attribute. -/
def findColspanTh (cells : Row) : Option Cell :=
  cells.find? (fun c => c.isTh && c.hasColspan)

/-- Model of `col >= 0 && col < cellTexts.length ? cellTexts[col] :
cellTexts.length > fb ? cellTexts[fb] : ''`. -/
def pickField (cellTexts : List String) (col : Int) (fb : Nat) : String :=
  if 0 ≤ col ∧ col < (cellTexts.length : Int) then cellTexts.getD col.toNat ""
  else if fb < cellTexts.length then cellTexts.getD fb ""
  else ""

/-- The hardcoded club/organization keyword list of the source. -/
def clubKeywords : List String :=
  ["Clovers", "Stockmen", "Getters", "Venturers", "FFA", "Mounties",
   "Rolling River", "Pulse", "4-H", "Club"]

/-- The club fallback scan: first cell text containing any keyword. -/
def findClub (cellTexts : List String) : String :=
  match cellTexts.find? (fun text => clubKeywords.any (fun k => jsIncludes text k)) with
  | some t => t
  | none => ""

/-- Name resolution for a data row: resolved name column, with fallback to
cell index 1 when at least two cells exist. -/
def resolveName (cols : ColMap) (cellTexts : List String) : String :=
  pickField cellTexts cols.nameCol 1

/-- The source's row-skipping test: `!name || name === '' ||
name.toLowerCase().includes('exhibitor') || name === 'Exhibitor Name'`
(the first two disjuncts coincide for strings). -/
def skipName (n : String) : Bool :=
  n == "" || jsIncludes (jsToLower n) "exhibitor" || n == "Exhibitor Name"

/-- The trimmed text of the last `span` inside a subcategory header cell. -/
def lastSpanText (headerCell : Cell) : String :=
  jsTrim (headerCell.spanTexts.getLastD "")

/-- The subcategory-header branch of the row loop: when the header cell has
spans, its last span's trimmed text contains a colon, and the colon's index
is positive, the new running subcategory is everything after the first
colon, trimmed; otherwise the running subcategory is unchanged. -/
def headerStep (currentSubcategory : String) (headerCell : Cell) : String :=
  if headerCell.spanTexts.length > 0 then
    if jsIncludes (lastSpanText headerCell) ":" then
      if jsIndexOfChar (lastSpanText headerCell) ':' > 0 then
        jsTrim (afterFirstColon (lastSpanText headerCell))
      else currentSubcategory
    else currentSubcategory
  else currentSubcategory

/-- The club cell read from the resolved club column (empty when the column
is unresolved or out of range). -/
def clubBase (cols : ColMap) (cellTexts : List String) : String :=
  if 0 ≤ cols.clubCol ∧ cols.clubCol < (cellTexts.length : Int) then
    cellTexts.getD cols.clubCol.toNat ""
  else ""

/-- The club value: the resolved cell when non-empty, else the keyword scan. -/
def clubField (cols : ColMap) (cellTexts : List String) : String :=
  if clubBase cols cellTexts == "" then findClub cellTexts
  else clubBase cols cellTexts

/-- The data-row branch of the row loop: skip when the resolved name fails
the guard, otherwise build the entry from the resolved (or fallback)
columns. -/
def dataStep (cols : ColMap) (currentSubcategory : String) (cellTexts : List String) :
    Option ResultEntry :=
  if skipName (resolveName cols cellTexts) then none
  else
    some ⟨resolveName cols cellTexts,
          pickField cellTexts cols.ribbonCol 4,
          pickField cellTexts cols.awardsCol 6,
          pickField cellTexts cols.placingCol 5,
          clubField cols cellTexts,
          currentSubcategory⟩

/-- Process one row: given the current running subcategory, return the new
running subcategory and the entry the row contributes, if any.  Faithful to
the body of `allTableRows.forEach` in `extractCategoryResults`: rows with no
cells are skipped, a row holding a `th[colspan]` cell only updates the
running subcategory, every other row is a data row. -/
def rowStep (cols : ColMap) (currentSubcategory : String) (cells : Row) :
    String × Option ResultEntry :=
  if cells.length = 0 then (currentSubcategory, none)
  else
    match findColspanTh cells with
    | some headerCell => (headerStep currentSubcategory headerCell, none)
    | none =>
        (currentSubcategory,
         dataStep cols currentSubcategory (cells.map (fun cell => jsTrim cell.text)))

/-- Fold step over the accumulated `(currentSubcategory, results)` state:
the source pushes each produced entry onto `results`. -/
def processRow (cols : ColMap) (st : String × List ResultEntry) (cells : Row) :
    String × List ResultEntry :=
  ((rowStep cols st.1 cells).1,
   match (rowStep cols st.1 cells).2 with
   | some e => st.2 ++ [e]
   | none => st.2)

/-- The `allTableRows.forEach` loop over all rows. -/
def processRows (cols : ColMap) (st : String × List ResultEntry) :
    List Row → String × List ResultEntry
  | [] => st
  | row :: rest => processRows cols (processRow cols st row) rest

/-- `extractCategoryResults`: the argument is the page's first table (its
rows in document order), or `none` when `document.querySelector('table')`
finds nothing. -/
def extractCategoryResults (table : Option (List Row)) : ExtractResult :=
  match table with
  | none => { error := some "No table found", results := [] }
  | some rows =>
      let cols := resolveCols (headersOf rows)
      let st := processRows cols ("General", []) rows
      { error := none, results := st.2 }

/-! ## Category discovery (`discoverCategories` page.evaluate) -/

/-- One `option` element of the selection control: its `value` and its
`textContent`. -/
structure OptionTag where
  value : String
  textContent : String
deriving Repr, DecidableEq

/-- A discovered category descriptor, fields as produced by the source's
`map`: `value`, trimmed `text`, and `displayName`. -/
structure CategoryDescriptor where
  value : String
  text : String
  displayName : String
deriving Repr, DecidableEq

/-- Model of `s.split('/').pop()`: the last slash-delimited segment. -/
def lastSlashSegment (s : String) : String :=
  String.mk ((splitOnChar (('/')) s.toList).getLastD [])

/-- The source's option-to-descriptor map:
`{ value, text: trim(text), displayName: trim(text).split('/').pop().trim() }`. -/
def mkDescriptor (option : OptionTag) : CategoryDescriptor :=
  { value := option.value
    text := jsTrim option.textContent
    displayName := jsTrim (lastSlashSegment (jsTrim option.textContent)) }

/-- `discoverCategories` evaluate body: the argument is the first `select`
element's options in document order, or `none` when the page has no
selection control (`document.querySelector(...)` finds nothing). -/
def discoverCategories (select : Option (List OptionTag)) : List CategoryDescriptor :=
  match select with
  | none => []
  | some options =>
      (options.filter (fun option =>
        option.value != "" && jsTrim option.textContent != "")).map mkDescriptor

/-! ## Submission (`scrapeDiscoveredCategories` submit evaluate) -/

/-- A clickable page element as the submit evaluate observes it: tag name,
`type` attribute (empty when absent), text content, `value`, `className`
and `id`. -/
structure DomElement where
  tag : String
  typeAttr : String
  textContent : String
  value : String
  className : String
  idAttr : String
deriving Repr, DecidableEq

/-- The DOM `type` property: a `button` without a `type` attribute reports
`"submit"`, an `input` without one reports `"text"`. -/
def typeProp (e : DomElement) : String :=
  if e.tag == "button" && e.typeAttr == "" then "submit"
  else if e.tag == "input" && e.typeAttr == "" then "text"
  else e.typeAttr

/-- Class-token membership, for the class selector `.btn-search`. -/
def hasClassToken (e : DomElement) (token : String) : Bool :=
  (splitOnChar ((' ')) e.className.toList).any (fun t => t == token.toList)

/-- The seven entries of the source's `searchSelectors` array, in order. -/
inductive Selector where
  | buttonTypeSubmit
  | inputTypeSubmit
  | buttonContainsSearch
  | btnSearchClass
  | searchBtnId
  | valueSearch
  | anyButton
deriving Repr, DecidableEq

/-- `searchSelectors` in source order; the third entry is the string
`button:contains("Search")`. -/
def searchSelectors : List Selector :=
  [.buttonTypeSubmit, .inputTypeSubmit, .buttonContainsSearch,
   .btnSearchClass, .searchBtnId, .valueSearch, .anyButton]

/-- Whether an element matches one of the valid selectors (attribute
selectors test the attribute, not the reflected property). -/
def matchesSel (sel : Selector) (e : DomElement) : Bool :=
  match sel with
  | .buttonTypeSubmit => e.tag == "button" && e.typeAttr == "submit"
  | .inputTypeSubmit => e.tag == "input" && e.typeAttr == "submit"
  | .buttonContainsSearch => false
  | .btnSearchClass => hasClassToken e "btn-search"
  | .searchBtnId => e.idAttr == "search-btn"
  | .valueSearch => e.value == "Search"
  | .anyButton => e.tag == "button"

/-- The exception message raised by `document.querySelector` on the invalid
pseudo-class selector (the exact browser wording varies; what matters is
that an exception is thrown). -/
def invalidSelectorMessage : String :=
  "SyntaxError: not a valid selector"

/-- The page state the submit evaluate inspects: the candidate elements in
document order and whether a `form` element exists. -/
structure SubmitPage where
  elements : List DomElement
  hasForm : Bool
deriving Repr, DecidableEq

/-- Model of `document.querySelector(selector)` for the selectors the loop
uses: `button:contains("Search")` is not a valid CSS selector, so the call
throws; every other selector returns the first matching element. -/
def domQuery (p : SubmitPage) (sel : Selector) : Except String (Option DomElement) :=
  match sel with
  | .buttonContainsSearch => .error invalidSelectorMessage
  | s => .ok (p.elements.find? (matchesSel s))

/-- Which of the three submission mechanisms ran. -/
inductive SubmitAction where
  | clickedButton
  | formSubmitted
  | enterKey
deriving Repr, DecidableEq

/-- The `for (const selector of searchSelectors)` loop: if a selector finds
an element whose text/value contains "search", whose `type` property is
`submit`, or whose `className` contains the substring "search", click it;
after the loop, fall back to submitting the first form if one exists. -/
def submitLoop (p : SubmitPage) : List Selector → Except String (Option SubmitAction)
  | [] => .ok (if p.hasForm then some .formSubmitted else none)
  | sel :: rest =>
      match domQuery p sel with
      | .error e => .error e
      | .ok none => submitLoop p rest
      | .ok (some button) =>
          let buttonText :=
            if button.textContent != "" then button.textContent
            else if button.value != "" then button.value
            else ""
          if jsIncludes (jsToLower buttonText) "search" || typeProp button == "submit"
              || jsIncludes button.className "search" then
            .ok (some .clickedButton)
          else submitLoop p rest

/-- The full submission step: run the evaluate; when it returns `false`
(no button clicked, no form), focus the selection control and press Enter. -/
def selectAndSubmit (p : SubmitPage) : Except String SubmitAction :=
  match submitLoop p searchSelectors with
  | .error e => .error e
  | .ok (some a) => .ok a
  | .ok none => .ok .enterKey

/-! ## Orchestration (`scrapeDiscoveredCategories` loop) -/

/-- The value stored per category: either the extractor's return object or
the `{ error: message }` marker written by the per-category catch. -/
inductive CategoryOutcome where
  | res : ExtractResult → CategoryOutcome
  | err : String → CategoryOutcome
deriving Repr, DecidableEq

/-- Model of `results[key] = v` on a JavaScript object, as an
insertion-ordered association list: an existing key keeps its position and
has its value replaced, a fresh key is appended. -/
def setKey (m : List (String × CategoryOutcome)) (k : String) (v : CategoryOutcome) :
    List (String × CategoryOutcome) :=
  if m.any (fun p => p.1 == k) then
    m.map (fun p => if p.1 == k then (p.1, v) else p)
  else m ++ [(k, v)]

/-- The outcome the loop body stores for one descriptor, given the step
function abstracting the per-category browser work (goto, select, submit,
wait, extract): a thrown error is caught and becomes the `err` marker. -/
def categoryOutcome (step : CategoryDescriptor → Except String ExtractResult)
    (category : CategoryDescriptor) : CategoryOutcome :=
  match step category with
  | .ok categoryResults => .res categoryResults
  | .error msg => .err msg

/-- The `for (const category of discoveredCategories)` loop with its
per-category try/catch. -/
def scrapeLoop (step : CategoryDescriptor → Except String ExtractResult)
    (results : List (String × CategoryOutcome)) :
    List CategoryDescriptor → List (String × CategoryOutcome)
  | [] => results
  | category :: rest =>
      scrapeLoop step
        (setKey results category.displayName (categoryOutcome step category)) rest

/-- `scrapeDiscoveredCategories`, starting from the empty `results` object. -/
def scrapeDiscoveredCategories (step : CategoryDescriptor → Except String ExtractResult)
    (discoveredCategories : List CategoryDescriptor) : List (String × CategoryOutcome) :=
  scrapeLoop step [] discoveredCategories

/-! ## Result transformation (`transformScrapedData`) -/

/-- A display entry in the transformed report (no subcategory field: the
subcategory is the group key). -/
structure DisplayEntry where
  name : String
  club : String
  placing : String
  awards : String
  ribbon : String
deriving Repr, DecidableEq

/-- A transformed category: an error marker, or the subcategory groups
(insertion-ordered) with the `totalEntries` count. -/
inductive TransformedOutcome where
  | err : String → TransformedOutcome
  | data : List (String × List DisplayEntry) → Nat → TransformedOutcome
deriving Repr, DecidableEq

/-- Append an entry to its subcategory group, creating the group at the end
on first sight (JavaScript object insertion order). -/
def pushGroup (groups : List (String × List DisplayEntry)) (k : String)
    (e : DisplayEntry) : List (String × List DisplayEntry) :=
  if groups.any (fun p => p.1 == k) then
    groups.map (fun p => if p.1 == k then (p.1, p.2 ++ [e]) else p)
  else groups ++ [(k, [e])]

/-- The grouping loop: skip entries with a falsy name, default a falsy
subcategory to "General", push the display fields. -/
def groupBySubcategory (entries : List ResultEntry) : List (String × List DisplayEntry) :=
  entries.foldl (fun groups entry =>
    if entry.name == "" then groups
    else
      let subcategory := if entry.subcategory == "" then "General" else entry.subcategory
      pushGroup groups subcategory
        ⟨entry.name, entry.club, entry.placing, entry.awards, entry.ribbon⟩) []

/-- Per-category transformation: a truthy `error` propagates; a missing
`results` array (the caught-error marker has none) yields the
"No valid results found" error; otherwise group and count the raw list. -/
def transformCategory : CategoryOutcome → TransformedOutcome
  | .err msg => if msg != "" then .err msg else .err "No valid results found"
  | .res categoryData =>
      match categoryData.error with
      | some e =>
          if e != "" then .err e
          else .data (groupBySubcategory categoryData.results) categoryData.results.length
      | none => .data (groupBySubcategory categoryData.results) categoryData.results.length

/-- `transformScrapedData` over the whole result mapping. -/
def transformScrapedData (rawResults : List (String × CategoryOutcome)) :
    List (String × TransformedOutcome) :=
  rawResults.map (fun p => (p.1, transformCategory p.2))

/-! ## Specification-side definitions (for refinement statements) -/

/-- Modelled from the spec's words: "the subcategory name is everything
after the last colon, trimmed" — everything after the LAST colon of `s`.
Used only to compare the spec's reading against the source's
`indexOf(':')` behaviour. -/
def afterLastColonSpec (s : String) : String :=
  String.mk ((s.toList.reverse.takeWhile (fun c => !(c == ':'))).reverse)

/-- The five column roles the header scan can assign. -/
inductive ColRole where
  | name
  | ribbon
  | award
  | club
  | placing
deriving Repr, DecidableEq

/-- Read one role's resolved index out of a column map. -/
def getRole (m : ColMap) : ColRole → Int
  | .name => m.nameCol
  | .ribbon => m.ribbonCol
  | .award => m.awardsCol
  | .club => m.clubCol
  | .placing => m.placingCol

/-- Specification-side reading of the header chain: the single role a
header text is assigned, decided by the fixed priority, or `none`. -/
def headerRole (header : String) : Option ColRole :=
  let headerLower := jsToLower header
  if jsIncludes headerLower "exhibitor" && jsIncludes headerLower "name" then some .name
  else if jsIncludes headerLower "ribbon" then some .ribbon
  else if jsIncludes headerLower "award" then some .award
  else if jsIncludes headerLower "club" then some .club
  else if jsIncludes headerLower "placing" then some .placing
  else none

/-- Update at most one role of a column map. -/
def setRole (m : ColMap) : Option ColRole → Int → ColMap
  | none, _ => m
  | some .name, i => { m with nameCol := i }
  | some .ribbon, i => { m with ribbonCol := i }
  | some .award, i => { m with awardsCol := i }
  | some .club, i => { m with clubCol := i }
  | some .placing, i => { m with placingCol := i }

/-! ## Concrete fixtures used by counterexamples and witnesses -/

/-- A table whose subcategory-header span text holds two colons, followed
by one data row. -/
def c1Table : List Row :=
  [[⟨true, true, ["A: B: C"], ""⟩],
   [⟨false, false, [], "x"⟩, ⟨false, false, [], "R1"⟩]]

/-- A table with a single data row whose resolved name contains (but does
not equal) "exhibitor". -/
def c2Table : List Row :=
  [[⟨false, false, [], "x"⟩, ⟨false, false, [], "Prize Exhibitors"⟩]]

/-- A page with a form and a plain button labelled "Search" (no `type`
attribute), i.e. one on which the spec's mechanism (1) should fire. -/
def c3Page : SubmitPage :=
  { elements := [⟨"button", "", "Search", "", "", ""⟩], hasForm := true }

/-- Alternating subcategory headers and data rows, for the positional
attribution example. -/
def c7Rows : List Row :=
  [[⟨true, true, ["Class: A"], "Class: A"⟩],
   [⟨false, false, [], "x"⟩, ⟨false, false, [], "R1"⟩],
   [⟨true, true, ["Class: B"], "Class: B"⟩],
   [⟨false, false, [], "x"⟩, ⟨false, false, [], "R2"⟩]]

/-- A step function that fails on the descriptor named "Bad" and succeeds
elsewhere. -/
def stepW : CategoryDescriptor → Except String ExtractResult :=
  fun d => if d.displayName == "Bad" then .error "NavigationError" else .ok ⟨none, []⟩

/-- A step function distinguishing two descriptors that collide on
`displayName`. -/
def stepDup : CategoryDescriptor → Except String ExtractResult :=
  fun d =>
    if d.value == "v1" then .ok ⟨none, [⟨"Ann", "", "", "", "", "General"⟩]⟩
    else .ok ⟨none, []⟩

/-- A duplicate entry pair member for the totalEntries example. -/
def dupEntry : ResultEntry := ⟨"Ann", "r", "aw", "p", "c", "S"⟩

/-! ## Helper lemmas about the extractor fold -/

theorem dataStep_some_subcategory (cols : ColMap) (s : String) (cellTexts : List String)
    (e : ResultEntry) (h : dataStep cols s cellTexts = some e) : e.subcategory = s := by
  unfold dataStep at h
  split at h
  · simp at h
  · simp only [Option.some.injEq] at h
    rw [← h]

theorem rowStep_fst_of_not_header (cols : ColMap) (s : String) (cells : Row)
    (h : findColspanTh cells = none) : (rowStep cols s cells).1 = s := by
  unfold rowStep
  rw [h]
  split <;> rfl

theorem rowStep_snd_of_header (cols : ColMap) (s : String) (cells : Row) (c : Cell)
    (h : findColspanTh cells = some c) : (rowStep cols s cells).2 = none := by
  unfold rowStep
  rw [h]
  split <;> rfl

theorem rowStep_some_subcategory (cols : ColMap) (s : String) (cells : Row)
    (e : ResultEntry) (h : (rowStep cols s cells).2 = some e) : e.subcategory = s := by
  rcases hf : findColspanTh cells with _ | c
  · unfold rowStep at h
    rw [hf] at h
    split at h
    · simp at h
    · exact dataStep_some_subcategory cols s _ e h
  · rw [rowStep_snd_of_header cols s cells c hf] at h
    simp at h

theorem processRow_fst (cols : ColMap) (st : String × List ResultEntry) (cells : Row) :
    (processRow cols st cells).1 = (rowStep cols st.1 cells).1 := rfl

theorem processRow_snd_none (cols : ColMap) (st : String × List ResultEntry) (cells : Row)
    (h : (rowStep cols st.1 cells).2 = none) : (processRow cols st cells).2 = st.2 := by
  simp [processRow, h]

theorem processRow_snd_some (cols : ColMap) (st : String × List ResultEntry) (cells : Row)
    (e : ResultEntry) (h : (rowStep cols st.1 cells).2 = some e) :
    (processRow cols st cells).2 = st.2 ++ [e] := by
  simp [processRow, h]

theorem processRows_no_entry (cols : ColMap) :
    ∀ (rows : List Row),
      (∀ r ∈ rows, ∀ s, (rowStep cols s r).2 = none) →
      ∀ s acc, (processRows cols (s, acc) rows).2 = acc := by
  intro rows
  induction rows with
  | nil => intro _ s acc; rfl
  | cons row rest ih =>
    intro h s acc
    show (processRows cols (processRow cols (s, acc) row) rest).2 = acc
    have hrow : (rowStep cols s row).2 = none := h row (by simp) s
    have hpr : processRow cols (s, acc) row = ((rowStep cols s row).1, acc) := by
      refine Prod.ext rfl ?_
      exact processRow_snd_none cols (s, acc) row hrow
    rw [hpr]
    exact ih (fun r hr s2 => h r (by simp [hr]) s2) _ _

theorem processRows_all_same_subcategory (cols : ColMap) :
    ∀ (rows : List Row) (s : String) (acc : List ResultEntry),
      (∀ r ∈ rows, findColspanTh r = none) →
      (∀ e ∈ acc, e.subcategory = s) →
      ∀ e ∈ (processRows cols (s, acc) rows).2, e.subcategory = s := by
  intro rows
  induction rows with
  | nil => intro s acc _ hacc e he; exact hacc e he
  | cons row rest ih =>
    intro s acc hnh hacc e he
    have hfst : (rowStep cols s row).1 = s :=
      rowStep_fst_of_not_header cols s row (hnh row (by simp))
    have hacc2 : ∀ e2 ∈ (processRow cols (s, acc) row).2, e2.subcategory = s := by
      intro e2 he2
      rcases hsnd : (rowStep cols s row).2 with _ | e3
      · rw [processRow_snd_none cols (s, acc) row hsnd] at he2
        exact hacc e2 he2
      · rw [processRow_snd_some cols (s, acc) row e3 hsnd] at he2
        rcases List.mem_append.mp he2 with hin | hin
        · exact hacc e2 hin
        · have : e2 = e3 := by simpa using hin
          rw [this]
          exact rowStep_some_subcategory cols s row e3 hsnd
    have hpr : processRow cols (s, acc) row = (s, (processRow cols (s, acc) row).2) :=
      Prod.ext hfst rfl
    simp only [processRows] at he
    rw [hpr] at he
    exact ih s _ (fun r hr => hnh r (by simp [hr])) hacc2 e he

theorem containsPat_colon_split :
    ∀ (l : List Char), containsPat [':'] l = true →
      ∃ pre, containsPat [':'] pre = false ∧
        l = pre ++ ':' :: ((l.dropWhile (fun c => !(c == ':'))).drop 1) := by
  intro l
  induction l with
  | nil => intro h; simp [containsPat, startsWith] at h
  | cons c rest ih =>
    intro h
    by_cases hc : c = ':'
    · subst hc
      refine ⟨[], by simp [containsPat, startsWith], ?_⟩
      simp [List.dropWhile]
    · have hrest : containsPat [':'] rest = true := by
        simp only [containsPat, startsWith, Bool.or_eq_true, Bool.and_eq_true] at h
        rcases h with ⟨h1, _⟩ | h2
        · exact absurd (beq_iff_eq.mp h1).symm hc
        · exact h2
      obtain ⟨pre, hpre, heq⟩ := ih hrest
      refine ⟨c :: pre, ?_, ?_⟩
      · simp only [containsPat, startsWith, Bool.or_eq_false_iff, Bool.and_eq_false_iff]
        constructor
        · left
          exact beq_eq_false_iff_ne.mpr (fun h2 => hc h2.symm)
        · exact hpre
      · have hbe : (c == ':') = false := beq_eq_false_iff_ne.mpr hc
        have hdrop : (c :: rest).dropWhile (fun x => !(x == ':')) =
            rest.dropWhile (fun x => !(x == ':')) := by
          simp [List.dropWhile, hbe]
        rw [hdrop]
        simpa using heq

/-! ## Claim theorems: Table Extractor -/

/-- C1 (counterexample): on a header row whose last span text is
"A: B: C", the extractor sets the running subcategory to "B: C" — the text
after the FIRST colon — whereas the claim's "everything after the last
colon, trimmed" would give "C". -/
theorem extract_subcategory_counterexample :
    ((extractCategoryResults (some c1Table)).results.map (fun e => e.subcategory) = ["B: C"])
    ∧ jsTrim (afterLastColonSpec (lastSpanText ⟨true, true, ["A: B: C"], ""⟩)) = "C"
    ∧ ("B: C" : String) ≠ "C" := by decide

/-- C1 (amended): a row holding a `th[colspan]` cell contributes no entry;
when that cell has spans, its last span's trimmed text contains a colon and
that colon is not the leading character, the running subcategory becomes
everything after the FIRST colon of that text, trimmed.  The last conjunct
pins down the meaning of `afterFirstColon`: the text decomposes as a
colon-free prefix, the first colon, then exactly `afterFirstColon`. -/
theorem extract_subcategory_after_first_colon :
    (∀ cols s cells c, findColspanTh cells = some c → (rowStep cols s cells).2 = none)
    ∧ (∀ cols s cells c, findColspanTh cells = some c →
        c.spanTexts.length > 0 →
        jsIncludes (lastSpanText c) ":" = true →
        jsIndexOfChar (lastSpanText c) ':' > 0 →
        (rowStep cols s cells).1 = jsTrim (afterFirstColon (lastSpanText c)))
    ∧ (∀ t : String, jsIncludes t ":" = true →
        ∃ pre : List Char, containsPat [':'] pre = false ∧
          t.toList = pre ++ ':' :: (afterFirstColon t).toList) := by
  refine ⟨?_, ?_, ?_⟩
  · exact rowStep_snd_of_header
  · intro cols s cells c h hlen hcol hpos
    have hne : ¬cells.length = 0 := by
      intro h0
      rw [List.length_eq_zero.mp h0] at h
      simp [findColspanTh] at h
    unfold rowStep
    rw [h, if_neg hne]
    show headerStep s c = _
    unfold headerStep
    rw [if_pos hlen, if_pos hcol, if_pos hpos]
  · intro t ht
    have h2 : containsPat [':'] t.toList = true := ht
    obtain ⟨pre, hpre, heq⟩ := containsPat_colon_split t.toList h2
    exact ⟨pre, hpre, heq⟩

/-- C1 (witness): applying the amended theorem to a concrete header row
with span text "A: B: C" gives running subcategory "B: C". -/
theorem extract_subcategory_after_first_colon_witness :
    (rowStep ColMap.init "General" [⟨true, true, ["A: B: C"], ""⟩]).1 = "B: C" := by
  have := extract_subcategory_after_first_colon.2.1 ColMap.init "General"
    [⟨true, true, ["A: B: C"], ""⟩] ⟨true, true, ["A: B: C"], ""⟩
    (by decide) (by decide) (by decide) (by decide)
  rw [this]
  decide

/-- C2 (counterexample): the data row with resolved name
"Prize Exhibitors" — non-empty, not case-insensitively equal to
"exhibitor", and not the literal "Exhibitor Name" — is nevertheless
skipped, because the source tests `includes('exhibitor')`, a substring
match, not equality. -/
theorem extract_skip_counterexample :
    (extractCategoryResults (some c2Table)).results = []
    ∧ resolveName (resolveCols (headersOf c2Table))
        ((c2Table.headD []).map (fun cell => jsTrim cell.text)) = "Prize Exhibitors"
    ∧ ("Prize Exhibitors" : String) ≠ ""
    ∧ jsToLower "Prize Exhibitors" ≠ jsToLower "exhibitor"
    ∧ ("Prize Exhibitors" : String) ≠ "Exhibitor Name" := by decide

/-- C2 (amended): among non-header rows with at least one cell, the row is
skipped exactly when its resolved name is empty, its lowercased text
CONTAINS the substring "exhibitor", or it equals the literal
"Exhibitor Name"; every other resolved name is accepted as a data row. -/
theorem extract_skip_iff (cols : ColMap) (s : String) (cells : Row)
    (hne : cells ≠ []) (hnh : findColspanTh cells = none) :
    ((rowStep cols s cells).2 = none ↔
      skipName (resolveName cols (cells.map (fun cell => jsTrim cell.text))) = true) := by
  have hlen : ¬cells.length = 0 := fun h => hne (List.length_eq_zero.mp h)
  unfold rowStep
  rw [hnh, if_neg hlen]
  show dataStep cols s (cells.map (fun cell => jsTrim cell.text)) = none ↔ _
  unfold dataStep
  split
  · rename_i hskip
    simp [hskip]
  · rename_i hskip
    simp [hskip]

/-- C2 (witness): a concrete accepted row — resolved name "Ann" — is not
skipped, via the amended theorem. -/
theorem extract_skip_iff_witness :
    ((rowStep ColMap.init "General" [⟨false, false, [], "x"⟩, ⟨false, false, [], "Ann"⟩]).2 = none ↔
      skipName (resolveName ColMap.init
        (([⟨false, false, [], "x"⟩, ⟨false, false, [], "Ann"⟩] : Row).map
          (fun cell => jsTrim cell.text))) = true) :=
  extract_skip_iff ColMap.init "General" _ (by decide) (by decide)

/-- C4: the extractor returns the error variant "No table found" exactly
when the page has no table element; a present table all of whose rows
contribute no entry yields the entries variant with an empty list. -/
theorem extract_no_table_iff :
    (∀ table, (extractCategoryResults table).error = some "No table found" ↔ table = none)
    ∧ (∀ rows, (∀ r ∈ rows, ∀ s, (rowStep (resolveCols (headersOf rows)) s r).2 = none) →
        extractCategoryResults (some rows) = { error := none, results := [] }) := by
  constructor
  · intro table
    cases table with
    | none => simp [extractCategoryResults]
    | some rows => simp [extractCategoryResults]
  · intro rows h
    have hres := processRows_no_entry (resolveCols (headersOf rows)) rows h "General" []
    show ExtractResult.mk none _ = ExtractResult.mk none []
    rw [hres]

/-- C4 (witness): an existing but empty table yields the entries variant
with zero entries, not an error. -/
theorem extract_no_table_iff_witness :
    extractCategoryResults (some []) = { error := none, results := [] } :=
  extract_no_table_iff.2 [] (by simp)

/-- C7: subcategory attribution is positional and stateful: with no header
rows every entry keeps the initial "General"; data rows never change the
running subcategory; every produced entry carries the running subcategory
at its row; and on the concrete sequence header "A", row, header "B", row,
the two rows are tagged "A" and "B". -/
theorem extract_subcategory_positional :
    (∀ rows, (∀ r ∈ rows, findColspanTh r = none) →
      ∀ e ∈ (extractCategoryResults (some rows)).results, e.subcategory = "General")
    ∧ (∀ cols s cells, findColspanTh cells = none → (rowStep cols s cells).1 = s)
    ∧ (∀ cols s cells e, (rowStep cols s cells).2 = some e → e.subcategory = s)
    ∧ ((extractCategoryResults (some c7Rows)).results.map (fun e => (e.name, e.subcategory)) =
        [("R1", "A"), ("R2", "B")]) := by
  refine ⟨?_, ?_, ?_, by decide⟩
  · intro rows hnh e he
    have hr : (extractCategoryResults (some rows)).results =
        (processRows (resolveCols (headersOf rows)) ("General", []) rows).2 := rfl
    rw [hr] at he
    exact processRows_all_same_subcategory _ rows "General" [] hnh (by simp) e he
  · exact rowStep_fst_of_not_header
  · exact rowStep_some_subcategory

/-- C7 (witness): a concrete data row leaves the running subcategory
"Alpha" unchanged, via the positional theorem. -/
theorem extract_subcategory_positional_witness :
    (rowStep ColMap.init "Alpha" [⟨false, false, [], "x"⟩, ⟨false, false, [], "Ann"⟩]).1 = "Alpha" :=
  extract_subcategory_positional.2.1 ColMap.init "Alpha" _ (by decide)

/-! ## Claim theorems: Category Selector/Submitter -/

/-- C3 (code bug): the third entry of `searchSelectors`,
`button:contains("Search")`, is not a valid CSS selector, so
`document.querySelector` throws on it.  On a page with a form and a plain
button labelled "Search" — where mechanism (1) should recognize the
control by text, or at worst mechanism (2) should submit the form — the
submission evaluate instead raises the invalid-selector exception (the
first two selectors match nothing), and likewise on a page with no submit
control at all.  Only a button or input with an explicit
`type="submit"` attribute avoids the throw. -/
theorem submit_invalid_selector_throws :
    c3Page.hasForm = true
    ∧ (∃ e ∈ c3Page.elements, jsIncludes (jsToLower e.textContent) "search" = true)
    ∧ selectAndSubmit c3Page = .error invalidSelectorMessage
    ∧ selectAndSubmit { elements := [], hasForm := true } = .error invalidSelectorMessage
    ∧ selectAndSubmit { elements := [⟨"button", "submit", "Go", "", "", ""⟩], hasForm := false }
        = .ok .clickedButton := by
  refine ⟨rfl, ⟨⟨"button", "", "Search", "", "", ""⟩, by decide, by decide⟩, rfl, rfl, rfl⟩

/-! ## Helper lemmas about the orchestrator loop -/

theorem scrapeLoop_append (step : CategoryDescriptor → Except String ExtractResult)
    (l1 l2 : List CategoryDescriptor) :
    ∀ m, scrapeLoop step m (l1 ++ l2) = scrapeLoop step (scrapeLoop step m l1) l2 := by
  induction l1 with
  | nil => intro m; rfl
  | cons d rest ih =>
    intro m
    simp only [List.cons_append, scrapeLoop]
    exact ih _

theorem setKey_fresh (m : List (String × CategoryOutcome)) (k : String) (v : CategoryOutcome)
    (h : k ∉ m.map Prod.fst) : setKey m k v = m ++ [(k, v)] := by
  unfold setKey
  rw [if_neg]
  simp only [List.any_eq_true, beq_iff_eq, not_exists]
  intro p hp
  rcases hp with ⟨hmem, hk⟩
  exact h (hk ▸ List.mem_map.mpr ⟨p, hmem, rfl⟩)

theorem scrapeLoop_nodup (step : CategoryDescriptor → Except String ExtractResult) :
    ∀ (l : List CategoryDescriptor) (m : List (String × CategoryOutcome)),
      (∀ d ∈ l, d.displayName ∉ m.map Prod.fst) →
      (l.map (fun d => d.displayName)).Nodup →
      scrapeLoop step m l = m ++ l.map (fun d => (d.displayName, categoryOutcome step d)) := by
  intro l
  induction l with
  | nil => intro m _ _; simp [scrapeLoop]
  | cons d rest ih =>
    intro m hfresh hnd
    have hnd2 : d.displayName ∉ rest.map (fun d2 => d2.displayName) ∧
        (rest.map (fun d2 => d2.displayName)).Nodup := by
      rw [List.map_cons] at hnd
      exact List.nodup_cons.mp hnd
    simp only [scrapeLoop]
    rw [setKey_fresh m d.displayName (categoryOutcome step d) (hfresh d (by simp))]
    rw [ih (m ++ [(d.displayName, categoryOutcome step d)]) ?_ hnd2.2]
    · simp
    · intro d2 hd2
      simp only [List.map_append, List.mem_append, not_or]
      constructor
      · exact hfresh d2 (by simp [hd2])
      · simp only [List.map_cons, List.map_nil, List.mem_singleton]
        intro hcol
        exact hnd2.1 (hcol ▸ List.mem_map.mpr ⟨d2, hd2, rfl⟩)

/-! ## Claim theorems: Scrape Orchestrator -/

/-- C5: when the per-category step throws for descriptor `d`, the
orchestrator catches the error, stores it as that category's error marker,
and continues processing all the remaining descriptors from that state. -/
theorem scrape_isolates_category_errors
    (step : CategoryDescriptor → Except String ExtractResult)
    (pre post : List CategoryDescriptor) (d : CategoryDescriptor) (msg : String)
    (hstep : step d = .error msg) :
    scrapeDiscoveredCategories step (pre ++ d :: post) =
      scrapeLoop step
        (setKey (scrapeDiscoveredCategories step pre) d.displayName (.err msg)) post := by
  unfold scrapeDiscoveredCategories
  rw [scrapeLoop_append step pre (d :: post) []]
  simp only [scrapeLoop, categoryOutcome, hstep]

/-- C5 (witness): a failing middle category is recorded as its error
marker and the following category is still processed. -/
theorem scrape_isolates_category_errors_witness :
    stepW ⟨"v2", "t2", "Bad"⟩ = .error "NavigationError"
    ∧ scrapeDiscoveredCategories stepW
        ([⟨"v1", "t1", "Good"⟩] ++ ⟨"v2", "t2", "Bad"⟩ :: [⟨"v3", "t3", "Tail"⟩]) =
      scrapeLoop stepW
        (setKey (scrapeDiscoveredCategories stepW [⟨"v1", "t1", "Good"⟩]) "Bad"
          (.err "NavigationError")) [⟨"v3", "t3", "Tail"⟩] :=
  ⟨rfl, scrape_isolates_category_errors stepW [⟨"v1", "t1", "Good"⟩] [⟨"v3", "t3", "Tail"⟩]
    ⟨"v2", "t2", "Bad"⟩ "NavigationError" rfl⟩

/-- C6 (counterexample): two attempted descriptors colliding on
displayName "Dup" produce a one-entry mapping holding only the later
category's outcome; the first category's distinct outcome is silently
replaced. -/
theorem scrape_collision_counterexample :
    (scrapeDiscoveredCategories stepDup [⟨"v1", "t1", "Dup"⟩, ⟨"v2", "t2", "Dup"⟩]).length = 1
    ∧ scrapeDiscoveredCategories stepDup [⟨"v1", "t1", "Dup"⟩, ⟨"v2", "t2", "Dup"⟩] =
        [("Dup", .res ⟨none, []⟩)]
    ∧ categoryOutcome stepDup ⟨"v1", "t1", "Dup"⟩ ≠ CategoryOutcome.res ⟨none, []⟩ := by
  refine ⟨rfl, rfl, ?_⟩
  decide

/-- C6 (amended): when the attempted descriptors' displayNames are
pairwise distinct, the aggregate mapping lists every attempted category in
order, each carrying its populated or error outcome; when two descriptors
collide on displayName, the later outcome overwrites the earlier under the
shared key. -/
theorem scrape_enumerates_distinct
    (step : CategoryDescriptor → Except String ExtractResult)
    (l : List CategoryDescriptor)
    (hnd : (l.map (fun d => d.displayName)).Nodup) :
    scrapeDiscoveredCategories step l =
      l.map (fun d => (d.displayName, categoryOutcome step d)) := by
  unfold scrapeDiscoveredCategories
  simpa using scrapeLoop_nodup step l [] (by simp) hnd

/-- C6 (witness): with distinct displayNames, both attempted categories —
one failing, one succeeding — appear in the mapping in order. -/
theorem scrape_enumerates_distinct_witness :
    scrapeDiscoveredCategories stepW [⟨"v1", "t1", "Good"⟩, ⟨"v2", "t2", "Bad"⟩] =
      [("Good", categoryOutcome stepW ⟨"v1", "t1", "Good"⟩),
       ("Bad", categoryOutcome stepW ⟨"v2", "t2", "Bad"⟩)] :=
  scrape_enumerates_distinct stepW [⟨"v1", "t1", "Good"⟩, ⟨"v2", "t2", "Bad"⟩] (by decide)

/-! ## Claim theorems: Result Transformer -/

/-- C8: for the entries variant, `totalEntries` is the length of the raw
entry list, computed before grouping; on the concrete duplicate pair both
copies land in the same group and the count is still 2. -/
theorem transform_total_entries :
    (∀ entries, transformCategory (.res { error := none, results := entries }) =
      .data (groupBySubcategory entries) entries.length)
    ∧ transformCategory (.res { error := none, results := [dupEntry, dupEntry] }) =
        .data [("S", [⟨"Ann", "c", "p", "aw", "r"⟩, ⟨"Ann", "c", "p", "aw", "r"⟩])] 2 :=
  ⟨fun _ => rfl, by decide⟩

/-! ## Claim theorems: Category Discoverer -/

/-- C9: with no selection control on the page, discovery yields the empty
list; otherwise it yields, in option order, one descriptor per option with
a non-empty value and non-empty trimmed text, and on the two-option
example "Region A / Goats" and "Region A / Sheep" the displayNames are
"Goats" and "Sheep". -/
theorem discover_categories_spec :
    discoverCategories none = []
    ∧ (∀ options, discoverCategories (some options) =
        (options.filter (fun option =>
          option.value != "" && jsTrim option.textContent != "")).map mkDescriptor)
    ∧ (∀ option, (mkDescriptor option).displayName =
        jsTrim (lastSlashSegment (jsTrim option.textContent)))
    ∧ (discoverCategories
        (some [⟨"101", "Region A / Goats"⟩, ⟨"102", "Region A / Sheep"⟩])).map
          (fun d => d.displayName) = ["Goats", "Sheep"] :=
  ⟨rfl, fun _ => rfl, fun _ => rfl, by decide⟩

/-! ## Helper lemmas about column-role resolution -/

theorem assignHeader_eq_setRole (m : ColMap) (header : String) (i : Int) :
    assignHeader m header i = setRole m (headerRole header) i := by
  by_cases h1 : (jsIncludes (jsToLower header) "exhibitor"
      && jsIncludes (jsToLower header) "name") = true
  · simp [assignHeader, headerRole, setRole, h1]
  · by_cases h2 : jsIncludes (jsToLower header) "ribbon" = true
    · simp [assignHeader, headerRole, setRole, h1, h2]
    · by_cases h3 : jsIncludes (jsToLower header) "award" = true
      · simp [assignHeader, headerRole, setRole, h1, h2, h3]
      · by_cases h4 : jsIncludes (jsToLower header) "club" = true
        · simp [assignHeader, headerRole, setRole, h1, h2, h3, h4]
        · by_cases h5 : jsIncludes (jsToLower header) "placing" = true
          · simp [assignHeader, headerRole, setRole, h1, h2, h3, h4, h5]
          · simp [assignHeader, headerRole, setRole, h1, h2, h3, h4, h5]

theorem getRole_setRole_self (m : ColMap) (r : ColRole) (i : Int) :
    getRole (setRole m (some r) i) r = i := by
  cases r <;> rfl

theorem getRole_setRole_of_ne (m : ColMap) (o : Option ColRole) (r : ColRole) (i : Int)
    (h : o ≠ some r) : getRole (setRole m o i) r = getRole m r := by
  rcases o with _ | r2
  · rfl
  · cases r2 <;> cases r <;> first | rfl | simp_all [setRole, getRole]

theorem getRole_resolveColsAux_no_match (r : ColRole) :
    ∀ (l : List String) (m : ColMap) (i : Int),
      (∀ h2 ∈ l, headerRole h2 ≠ some r) →
      getRole (resolveColsAux m i l) r = getRole m r := by
  intro l
  induction l with
  | nil => intro m i _; rfl
  | cons hd tl ih =>
    intro m i hno
    show getRole (resolveColsAux (assignHeader m hd i) (i + 1) tl) r = getRole m r
    rw [ih (assignHeader m hd i) (i + 1) (fun h2 hh => hno h2 (by simp [hh]))]
    rw [assignHeader_eq_setRole]
    exact getRole_setRole_of_ne m (headerRole hd) r i (hno hd (by simp))

theorem resolveColsAux_append (l1 l2 : List String) :
    ∀ (m : ColMap) (i : Int),
      resolveColsAux m i (l1 ++ l2) =
        resolveColsAux (resolveColsAux m i l1) (i + l1.length) l2 := by
  induction l1 with
  | nil => intro m i; simp [resolveColsAux]
  | cons hd tl ih =>
    intro m i
    show resolveColsAux (assignHeader m hd i) (i + 1) (tl ++ l2) = _
    rw [ih (assignHeader m hd i) (i + 1)]
    have harith : i + 1 + (tl.length : Int) = i + ((hd :: tl).length : Int) := by
      simp only [List.length_cons]
      push_cast
      ring
    rw [harith]
    rfl

/-! ## Claim theorems: column-role resolution -/

/-- C10: each header is assigned at most one role, decided by the fixed
priority chain (name requires both "exhibitor" and "name"; otherwise the
first of ribbon, award, club, placing to match as a substring); and when a
header at position `pre.length` matches role `r` and no later header
matches `r`, the resolved index for `r` is that last matching position. -/
theorem resolve_columns_priority_last_wins :
    (∀ m header i, assignHeader m header i = setRole m (headerRole header) i)
    ∧ (∀ pre header post r, headerRole header = some r →
        (∀ h2 ∈ post, headerRole h2 ≠ some r) →
        getRole (resolveCols (pre ++ header :: post)) r = (pre.length : Int)) := by
  refine ⟨assignHeader_eq_setRole, ?_⟩
  intro pre header post r hr hno
  unfold resolveCols
  rw [resolveColsAux_append pre (header :: post) ColMap.init 0]
  show getRole (resolveColsAux (assignHeader (resolveColsAux ColMap.init 0 pre) header
    (0 + (pre.length : Int))) (0 + (pre.length : Int) + 1) post) r = (pre.length : Int)
  rw [getRole_resolveColsAux_no_match r post _ _ hno]
  rw [assignHeader_eq_setRole, hr, getRole_setRole_self]
  ring

/-- C10 (witness): with headers "Ribbon", "Ribbon Color", "Club" — two
ribbon matches followed by a non-ribbon header — the ribbon column resolves
to index 1, the last ribbon match. -/
theorem resolve_columns_priority_last_wins_witness :
    getRole (resolveCols (["Ribbon"] ++ "Ribbon Color" :: ["Club"])) ColRole.ribbon =
      ((["Ribbon"].length : Nat) : Int) :=
  resolve_columns_priority_last_wins.2 ["Ribbon"] "Ribbon Color" ["Club"] ColRole.ribbon
    (by decide) (by decide)

end FairScraper
